import Mathlib

/-!
Verification of the elastinats ingestion pipeline (src/main.go, src/elasticsearch.go).

The Go program consumes NATS messages, converts each into a `payload` document,
batches documents, and bulk-ships batches to Elasticsearch.  This file gives a
shallow embedding of the pipeline's data model and operations and proves or
refutes the frozen behavioural claims about it.

Conventions of the embedding:
* Go maps (`payload map[string]interface{}`) become association lists with an
  update-or-insert write (`setKey`), matching Go map-assignment semantics up to
  the (irrelevant) iteration order.
* External collaborators are abstracted at their call boundary: the JSON
  decoder's result is a `DecodeResult` (decode failure, or the decoded
  top-level fields of an object), the NATS receive result is a
  `NextMsgResult`, and per-document bulk-submit outcomes are given by the
  number of failures a document sees before it succeeds.
* Effectful code is modelled as a function producing an explicit event trace
  (connections opened, submits, counter increments, ...), so claims about side
  effects become decidable statements about traces.
-/

/-! ## Document builder (src/elasticsearch.go lines 12-26, src/main.go lines 129-136) -/

/-- Field values appearing in a document.  The claims only inspect string
fields, but the type keeps the other JSON scalar shapes for fidelity. -/
inductive JVal where
  | str : String → JVal
  | num : Int → JVal
  | boolean : Bool → JVal
  | null : JVal
deriving DecidableEq

/-- `type payload map[string]interface{}` (src/elasticsearch.go line 18),
modelled as an association list with unique keys maintained by `setKey`. -/
abbrev payload := List (String × JVal)

/-- `rawMsgKey = "@raw_msg"` (src/elasticsearch.go line 13). -/
def rawMsgKey : String := "@raw_msg"

/-- `timestampKey = "@timestamp"` (src/elasticsearch.go line 14). -/
def timestampKey : String := "@timestamp"

/-- `sourceKey = "@source"` (src/elasticsearch.go line 15). -/
def sourceKey : String := "@source"

/-- Go map lookup `p[k]`. -/
def getKey : payload → String → Option JVal
  | [], _ => none
  | (k0, v0) :: rest, k => if k0 = k then some v0 else getKey rest k

/-- Go map assignment `p[k] = v`: overwrite the value if the key is present,
otherwise add the entry. -/
def setKey : payload → String → JVal → payload
  | [], k, v => [(k, v)]
  | (k0, v0) :: rest, k, v =>
      if k0 = k then (k0, v) :: rest else (k0, v0) :: setKey rest k v

/-- `newPayload(msg, source)` (src/elasticsearch.go lines 20-26).  The third
argument stands for `time.Now().Format(time.RFC3339)`, the RFC3339-formatted
creation time. -/
def newPayload (msg source now : String) : payload :=
  [(rawMsgKey, JVal.str msg), (sourceKey, JVal.str source),
   (timestampKey, JVal.str now)]

/-- Outcome of `json.Unmarshal(m.Data, payload)` (src/main.go line 133) at the
decoder boundary.  Go's decoder has three behaviours at this call site:
the bytes do not decode into a map (error, which the code discards, map
untouched); the bytes are the JSON literal `null` (nil error, and the decoder
sets the pointed-to map to its zero value, i.e. clears it to nil); or the
bytes decode as a JSON object whose top-level fields are given (with unique
keys, as produced by Go's JSON object decoding). -/
inductive DecodeResult where
  | fail : DecodeResult
  | nullLit : DecodeResult
  | obj : List (String × JVal) → DecodeResult
deriving DecidableEq

/-- `json.Unmarshal` into a non-nil map keeps the existing entries and assigns
each decoded top-level field, overwriting same-named entries. -/
def mergeObj (p : payload) (fields : List (String × JVal)) : payload :=
  fields.foldl (fun acc kv => setKey acc kv.1 kv.2) p

/-- Effect of the ignored-error decode step on the freshly built payload:
failure leaves the payload untouched, the JSON literal `null` clears the map
(losing the reserved fields), and a decoded object merges its fields. -/
def mergeDecoded (p : payload) : DecodeResult → payload
  | DecodeResult.fail => p
  | DecodeResult.nullLit => []
  | DecodeResult.obj fields => mergeObj p fields

/-- The document built by the per-message task (src/main.go lines 129-136):
`newPayload(string(m.Data), m.Subject)` followed by the best-effort
`json.Unmarshal` whose error is discarded. -/
def buildDoc (msg source now : String) (dec : DecodeResult) : payload :=
  mergeDecoded (newPayload msg source now) dec

theorem getKey_setKey_self (p : payload) (k : String) (v : JVal) :
    getKey (setKey p k v) k = some v := by
  induction p with
  | nil => simp [setKey, getKey]
  | cons kv rest ih =>
      obtain ⟨k0, v0⟩ := kv
      by_cases h : k0 = k
      · simp [setKey, h, getKey]
      · simp [setKey, h, getKey, ih]

theorem getKey_setKey_ne (p : payload) (k : String) (v : JVal) (k' : String)
    (h : k ≠ k') : getKey (setKey p k v) k' = getKey p k' := by
  induction p with
  | nil => simp [setKey, getKey, h]
  | cons kv rest ih =>
      obtain ⟨k0, v0⟩ := kv
      by_cases h0 : k0 = k
      · subst h0
        simp [setKey, getKey, h]
      · simp [setKey, h0, getKey, ih]

theorem getKey_mergeObj_not_mem (fields : List (String × JVal)) :
    ∀ (p : payload) (k : String), k ∉ fields.map Prod.fst →
      getKey (mergeObj p fields) k = getKey p k := by
  induction fields with
  | nil => intro p k _; simp [mergeObj]
  | cons kv rest ih =>
      intro p k hk
      obtain ⟨k0, v0⟩ := kv
      simp only [List.map_cons, List.mem_cons] at hk
      push_neg at hk
      have h1 : getKey (mergeObj (setKey p k0 v0) rest) k =
          getKey (setKey p k0 v0) k := ih (setKey p k0 v0) k hk.2
      have h2 : getKey (setKey p k0 v0) k = getKey p k :=
        getKey_setKey_ne p k0 v0 k (fun he => hk.1 he.symm)
      simpa [mergeObj] using h1.trans h2

theorem getKey_mergeObj_of_mem (fields : List (String × JVal)) :
    ∀ (p : payload) (k : String) (v : JVal),
      (fields.map Prod.fst).Nodup → (k, v) ∈ fields →
      getKey (mergeObj p fields) k = some v := by
  induction fields with
  | nil => intro p k v _ hm; cases hm
  | cons kv rest ih =>
      intro p k v hnd hm
      obtain ⟨k0, v0⟩ := kv
      simp only [List.map_cons, List.nodup_cons] at hnd
      rcases List.mem_cons.mp hm with heq | hrest
      · have hk : k = k0 := congrArg Prod.fst heq
        have hv : v = v0 := congrArg Prod.snd heq
        subst hk; subst hv
        have hnot : k ∉ rest.map Prod.fst := hnd.1
        have := getKey_mergeObj_not_mem rest (setKey p k v) k hnot
        simpa [mergeObj, getKey_setKey_self] using this
      · simpa [mergeObj] using ih (setKey p k0 v0) k v hnd.2 hrest

theorem getKey_setKey_isSome (p : payload) (k0 : String) (v0 : JVal)
    (k : String) (h : (getKey p k).isSome = true) :
    (getKey (setKey p k0 v0) k).isSome = true := by
  by_cases he : k0 = k
  · subst he; simp [getKey_setKey_self]
  · rw [getKey_setKey_ne p k0 v0 k he]; exact h

theorem getKey_mergeObj_isSome (fields : List (String × JVal)) :
    ∀ (p : payload) (k : String), (getKey p k).isSome = true →
      (getKey (mergeObj p fields) k).isSome = true := by
  induction fields with
  | nil => intro p k h; simpa [mergeObj] using h
  | cons kv rest ih =>
      intro p k h
      obtain ⟨k0, v0⟩ := kv
      simpa [mergeObj] using ih (setKey p k0 v0) k (getKey_setKey_isSome p k0 v0 k h)

theorem getKey_newPayload_raw (msg source now : String) :
    getKey (newPayload msg source now) rawMsgKey = some (JVal.str msg) := by
  simp [newPayload, getKey]

theorem getKey_newPayload_source (msg source now : String) :
    getKey (newPayload msg source now) sourceKey = some (JVal.str source) := by
  have h1 : rawMsgKey ≠ sourceKey := by decide
  simp [newPayload, getKey, h1]

theorem getKey_newPayload_timestamp (msg source now : String) :
    getKey (newPayload msg source now) timestampKey = some (JVal.str now) := by
  have h1 : rawMsgKey ≠ timestampKey := by decide
  have h2 : sourceKey ≠ timestampKey := by decide
  simp [newPayload, getKey, h1, h2]

/-! ## Topic consumer loop body (src/main.go lines 116-138) -/

/-- A NATS message as used by the loop: `string(m.Data)` and `m.Subject`. -/
structure NatsMsg where
  data : String
  subject : String
deriving DecidableEq

/-- The three shapes of `sub.NextMsg(12h)`'s result: a message (nil error), a
timeout (`m = nil`, `err = nats.ErrTimeout`), or any other error (`m = nil`). -/
inductive NextMsgResult where
  | msg : NatsMsg → NextMsgResult
  | timeout : NextMsgResult
  | errOther : NextMsgResult
deriving DecidableEq

/-- What one iteration of `consumeForever`'s loop does with a receive result:
either it returns the error (ending the consumer), or it spawns the
per-message goroutine, carrying whatever `m` holds (possibly nil). -/
inductive ConsumeAction where
  | spawnTask : Option NatsMsg → ConsumeAction
  | terminate : ConsumeAction
deriving DecidableEq

/-- Loop body of `consumeForever` (src/main.go lines 117-137): a non-timeout
error returns; otherwise control falls through (there is no `continue` in the
timeout path) to the `go func()` that processes `m` — which is nil when the
receive timed out. -/
def consumeBody : NextMsgResult → ConsumeAction
  | NextMsgResult.errOther => ConsumeAction.terminate
  | NextMsgResult.timeout => ConsumeAction.spawnTask none
  | NextMsgResult.msg m => ConsumeAction.spawnTask (some m)

/-- The spawned per-message task (src/main.go lines 129-136): it evaluates
`m.Data` and `m.Subject`.  On a nil message this dereference panics, so no
document can be produced: modelled as `none`.  `now` is the RFC3339-formatted
creation time used by `newPayload`. -/
def msgTask (m : Option NatsMsg) (now : String) (dec : DecodeResult) :
    Option payload :=
  match m with
  | none => none
  | some mm => some (buildDoc mm.data mm.subject now dec)

/-! ## Elasticsearch configuration and connection (src/elasticsearch.go lines 28-64) -/

/-- `elasticConfig` (src/elasticsearch.go lines 28-37).  Go `int` fields are
embedded as `Int` (no arithmetic here approaches 2^63). -/
structure elasticConfig where
  index : String
  hosts : List String
  port : Int
  trace : Bool
  reconnectAttempts : Int
  retrySeconds : Int
  batchSize : Int
  batchTimeoutSec : Int
deriving DecidableEq

/-- The connection object built by `connectToES` (src/elasticsearch.go lines
39-64): an `elastigo.NewConn()` with the port set when positive, the request
tracer installed when tracing, and the hosts copied. -/
structure ElastiConn where
  portSetting : Option String
  hosts : List String
  hasRequestTracer : Bool
deriving DecidableEq

/-- `connectToES` (src/elasticsearch.go lines 39-64).  It only constructs and
configures the client object — no network I/O — and its single return
statement is `return conn, nil`, so the error component is always `none`. -/
def connectToES (config : elasticConfig) : ElastiConn × Option String :=
  ({ portSetting := if 0 < config.port then some (toString config.port) else none,
     hosts := config.hosts,
     hasRequestTracer := config.trace }, none)

/-! ## Batch aggregator (src/elasticsearch.go lines 66-95) -/

/-- Why a batch was handed to `sendToES`: the size branch (line 84) or the
timeout branch (line 89). -/
inductive Trigger where
  | size : Trigger
  | timeout : Trigger
deriving DecidableEq

/-- The two events the `select` (lines 81-93) can serve in one iteration:
a document arriving on `incoming`, or the `time.After` timer firing.
Documents are identified by a number; their content is irrelevant here. -/
inductive AggEvent where
  | arrive : ℕ → AggEvent
  | timeoutFire : AggEvent
deriving DecidableEq

/-- One `select` iteration of `batchAndSend` (src/elasticsearch.go lines
80-94) on the open batch: an arrival is appended and, when
`len(batch) >= config.BatchSize`, the batch is flushed (size trigger) and
replaced by a fresh empty batch; a timer fire flushes whatever is in the
batch (timeout trigger) and replaces it likewise.  Returns the new open batch
and the flushed batch, if any. -/
def batchAndSendStep (config : elasticConfig) (batch : List ℕ) :
    AggEvent → List ℕ × Option (Trigger × List ℕ)
  | AggEvent.arrive d =>
      if config.batchSize ≤ ((batch ++ [d]).length : Int) then
        ([], some (Trigger.size, batch ++ [d]))
      else (batch ++ [d], none)
  | AggEvent.timeoutFire => ([], some (Trigger.timeout, batch))

/-- Run of the aggregator loop over a sequence of served events, starting from
a given open batch; returns the final open batch and all flushed batches in
order, each with its trigger. -/
def batchAndSendRun (config : elasticConfig) :
    List ℕ → List AggEvent → List ℕ × List (Trigger × List ℕ)
  | batch, [] => (batch, [])
  | batch, e :: evs =>
      ((batchAndSendRun config (batchAndSendStep config batch e).1 evs).1,
       (batchAndSendStep config batch e).2.toList ++
         (batchAndSendRun config (batchAndSendStep config batch e).1 evs).2)

/-- Timed semantics of the same loop, deciding for each iteration which
`select` arm fires.  Go's `time.After` is called anew on every iteration
(src/elasticsearch.go line 89), so the timer deadline is always
`batchTimeoutSec` after the iteration started.  Inputs: remaining fuel (the
loop itself never ends), the time the current iteration started, the pending
arrival times (sorted, tie broken towards the timer), and the open batch.
Observation stops when no arrival is pending.  Output: the flushes, each as
(time, trigger, batch); a document is identified by its arrival time. -/
def batchAndSendTimed (config : elasticConfig) :
    ℕ → ℕ → List ℕ → List ℕ → List (ℕ × Trigger × List ℕ)
  | 0, _, _, _ => []
  | _ + 1, _, [], _ => []
  | fuel + 1, t, a :: rest, batch =>
      if a < t + config.batchTimeoutSec.toNat then
        if config.batchSize ≤ ((batch ++ [a]).length : Int) then
          (a, Trigger.size, batch ++ [a]) :: batchAndSendTimed config fuel a rest []
        else
          batchAndSendTimed config fuel a rest (batch ++ [a])
      else
        (t + config.batchTimeoutSec.toNat, Trigger.timeout, batch) ::
          batchAndSendTimed config fuel (t + config.batchTimeoutSec.toNat) (a :: rest) []

/-- Recognises a timeout-triggered flush record. -/
def isTimeoutFlush : ℕ × Trigger × List ℕ → Bool
  | (_, Trigger.timeout, _) => true
  | (_, Trigger.size, _) => false

/-- `gapsLT T t arrivals`: starting from time `t`, every pending arrival comes
strictly less than `T` after the previous event. -/
def gapsLT (T : ℕ) : ℕ → List ℕ → Bool
  | _, [] => true
  | t, a :: rest => decide (a < t + T) && gapsLT T a rest

/-! ## Bulk dispatcher (src/elasticsearch.go lines 97-150) -/

/-- Observable steps of one `sendToES` invocation.  Connections are identified
by creation order within the invocation: the initial `connectToES` client is
`0`, each `reconnect` result takes the next number.  `submit d a c` records
`indexer.Index(...)` for document `d` on attempt `a` through the indexer whose
underlying connection is `c`. -/
inductive ESEvent where
  | fatalConnect : ESEvent
  | openConn : ℕ → ESEvent
  | startSession : ℕ → ESEvent
  | submit : ℕ → ℕ → ℕ → ESEvent
  | submitFail : ℕ → ℕ → ESEvent
  | reconnected : ℕ → ESEvent
  | sentInc : ESEvent
  | flushSession : ESEvent
  | stopSession : ESEvent
deriving DecidableEq

/-- The inner `for resend` loop (src/elasticsearch.go lines 125-148) for one
document: `ic` is the connection the bulk indexer was created from (line 112 —
it never changes), `i` the document's position in the batch, `k` the number of
times `indexer.Index` still fails before it succeeds, `a` the current attempt
number, `f` the next fresh connection id.  A failure logs, reconnects (the new
client id is recorded) and resends; a success increments the shared sent
counter.  Returns the emitted events and the next fresh id. -/
def sendDoc (ic i : ℕ) : ℕ → ℕ → ℕ → List ESEvent × ℕ
  | 0, a, f => ([ESEvent.submit i a ic, ESEvent.sentInc], f)
  | k + 1, a, f =>
      (ESEvent.submit i a ic :: ESEvent.submitFail i a :: ESEvent.reconnected f ::
         (sendDoc ic i k (a + 1) (f + 1)).1,
       (sendDoc ic i k (a + 1) (f + 1)).2)

/-- The outer `for _, in := range batch` loop (src/elasticsearch.go lines
123-149), threading the fresh connection id across documents.  The batch is
given by the per-document failure counts. -/
def sendDocs (ic : ℕ) : ℕ → ℕ → List ℕ → List ESEvent × ℕ
  | _, f, [] => ([], f)
  | i, f, k :: rest =>
      ((sendDoc ic i k 0 f).1 ++ (sendDocs ic (i + 1) (sendDoc ic i k 0 f).2 rest).1,
       (sendDocs ic (i + 1) (sendDoc ic i k 0 f).2 rest).2)

/-- `sendToES` (src/elasticsearch.go lines 97-150) as an event trace.  An
empty batch returns immediately (line 98).  Otherwise `connectToES` is called;
a non-nil error would be fatal (line 109).  The bulk indexer is created from
that client (line 112), started, the documents are submitted, and the deferred
flush/stop (lines 117-121) runs.  `fails` holds, per document in order, how
many times its submit fails before succeeding. -/
def sendToES (config : elasticConfig) (fails : List ℕ) : List ESEvent :=
  if fails.length = 0 then []
  else
    match (connectToES config).2 with
    | some _ => [ESEvent.fatalConnect]
    | none =>
        ESEvent.openConn 0 :: ESEvent.startSession 0 ::
          ((sendDocs 0 0 1 fails).1 ++ [ESEvent.flushSession, ESEvent.stopSession])

/-- Number of increments of the shared `esSent` counter in a trace. -/
def sentCount (evs : List ESEvent) : ℕ :=
  evs.countP (fun e => decide (e = ESEvent.sentInc))

/-! ## Reconnect (src/elasticsearch.go lines 152-166) -/

/-- Observable steps of `reconnect`: a call of `config.connectToES` at a given
attempt index, the warning after a failed attempt, a sleep (the claim under
scrutiny asserts one between consecutive attempts; the function's body
contains no sleep call, so no trace ever holds one), the fatal exit after the
budget is exhausted, and the successful return. -/
inductive RcEffect where
  | connAttempt : ℕ → RcEffect
  | warnFail : ℕ → RcEffect
  | sleep : Int → RcEffect
  | fatalExit : RcEffect
  | connected : ℕ → RcEffect
deriving DecidableEq

/-- The `for ; times < config.ReconnectAttempts; times++` loop of `reconnect`
(src/elasticsearch.go lines 153-165), generalised over the outcome of each
`connectToES` call (`ok t` says whether attempt `t` succeeds).  `t` is the
attempt index, `r` the remaining budget.  Exhaustion reaches `log.Fatalf`
(line 164).  Returns the trace and the successful attempt's index, if any. -/
def reconnectLoop (ok : ℕ → Bool) : ℕ → ℕ → List RcEffect × Option ℕ
  | _, 0 => ([RcEffect.fatalExit], none)
  | t, r + 1 =>
      if ok t then ([RcEffect.connAttempt t, RcEffect.connected t], some t)
      else
        (RcEffect.connAttempt t :: RcEffect.warnFail t :: (reconnectLoop ok (t + 1) r).1,
         (reconnectLoop ok (t + 1) r).2)

/-- `reconnect` with budget `config.ReconnectAttempts` (a Go `int`; a
non-positive budget runs the loop zero times, i.e. `toNat`). -/
def reconnectWith (budget : Int) (ok : ℕ → Bool) : List RcEffect × Option ℕ :=
  reconnectLoop ok 0 budget.toNat

/-- `reconnect` as called in this program: every attempt invokes the real
`connectToES`, whose error component decides success. -/
def reconnect (config : elasticConfig) : List RcEffect × Option ℕ :=
  reconnectWith config.reconnectAttempts (fun _ => ((connectToES config).2).isNone)

/-- Recognises a `connectToES` call in a `reconnect` trace. -/
def isConnAttempt : RcEffect → Bool
  | RcEffect.connAttempt _ => true
  | _ => false

/-- Recognises a sleep in a `reconnect` trace. -/
def isSleep : RcEffect → Bool
  | RcEffect.sleep _ => true
  | _ => false

/-! ## Shared counters across the pipeline (src/main.go lines 19-22) -/

/-- Pipeline-level counter state: the shared `counters` fields `natsConsumed`
and `esSent` (src/main.go lines 19-22) plus the number of documents received
but not yet successfully submitted (in a conversion task, in the ingress
channel, in the open batch, or in a dispatching batch). -/
structure SysState where
  natsConsumed : ℕ
  esSent : ℕ
  pending : ℕ
deriving DecidableEq

/-- Counter-relevant events of the pipeline.  `recv` is the arrival of one bus
message.  Modelled from the spec: the consumed-counter increment is performed
by the caller/framework layer around the topic consumer — the `processMsg`
handler registered at src/main.go lines 85/87, whose body is not part of
src/ — once per received message (spec sections 4.2 and 3), together with the
hand-off of one document into the pipeline.  `submitOk` is a successful
`indexer.Index` of a pending document, at which `sendToES` increments `esSent`
(src/elasticsearch.go line 146). -/
inductive SysEvent where
  | recv : SysEvent
  | submitOk : SysEvent
deriving DecidableEq

/-- One counter-relevant transition.  A submit success requires a pending
document (only documents previously received can be submitted); otherwise the
event is impossible (`none`). -/
def sysStep (s : SysState) : SysEvent → Option SysState
  | SysEvent.recv =>
      some { natsConsumed := s.natsConsumed + 1, esSent := s.esSent,
             pending := s.pending + 1 }
  | SysEvent.submitOk =>
      if s.pending = 0 then none
      else some { natsConsumed := s.natsConsumed, esSent := s.esSent + 1,
                  pending := s.pending - 1 }

/-- Run of the counter transition system over an event sequence. -/
def sysRun : SysState → List SysEvent → Option SysState
  | s, [] => some s
  | s, e :: evs =>
      match sysStep s e with
      | none => none
      | some s' => sysRun s' evs

/-! ## Supporting lemmas -/

theorem batchAndSendStep_open_lt (config : elasticConfig)
    (h1 : 1 ≤ config.batchSize) (batch : List ℕ) (e : AggEvent)
    (hb : (batch.length : Int) < config.batchSize) :
    ((batchAndSendStep config batch e).1.length : Int) < config.batchSize := by
  cases e with
  | arrive d =>
      simp only [batchAndSendStep]
      split
      · simpa using h1
      · rename_i hc
        show (((batch ++ [d]).length : ℕ) : Int) < config.batchSize
        omega
  | timeoutFire =>
      simpa [batchAndSendStep] using h1

theorem batchAndSendStep_flush_bounds (config : elasticConfig)
    (h1 : 1 ≤ config.batchSize) (batch : List ℕ) (e : AggEvent)
    (hb : (batch.length : Int) < config.batchSize) (tr : Trigger) (b : List ℕ)
    (hf : (batchAndSendStep config batch e).2 = some (tr, b)) :
    (tr = Trigger.size → 1 ≤ b.length ∧ (b.length : Int) ≤ config.batchSize) ∧
    (tr = Trigger.timeout → (b.length : Int) < config.batchSize) := by
  cases e with
  | arrive d =>
      simp only [batchAndSendStep] at hf
      rcases hsplit : decide (config.batchSize ≤ (((batch ++ [d]).length : ℕ) : Int))
        with _ | _
      · rw [if_neg (by simpa using hsplit)] at hf
        exact absurd hf (by simp)
      · have hc : config.batchSize ≤ (((batch ++ [d]).length : ℕ) : Int) := by
          simpa using hsplit
        rw [if_pos hc] at hf
        obtain ⟨rfl, rfl⟩ : Trigger.size = tr ∧ batch ++ [d] = b := by
          simpa using hf
        constructor
        · intro _
          constructor
          · simp
          · simp only [List.length_append, List.length_cons, List.length_nil] at hc ⊢
            omega
        · intro h; exact absurd h (by simp)
  | timeoutFire =>
      obtain ⟨rfl, rfl⟩ : Trigger.timeout = tr ∧ batch = b := by
        simpa [batchAndSendStep] using hf
      constructor
      · intro h; exact absurd h (by simp)
      · intro _; exact hb

theorem batchAndSendRun_flush_bounds (config : elasticConfig)
    (h1 : 1 ≤ config.batchSize) :
    ∀ (evs : List AggEvent) (batch : List ℕ),
      (batch.length : Int) < config.batchSize →
      ∀ tr b, (tr, b) ∈ (batchAndSendRun config batch evs).2 →
        (tr = Trigger.size → 1 ≤ b.length ∧ (b.length : Int) ≤ config.batchSize) ∧
        (tr = Trigger.timeout → (b.length : Int) < config.batchSize) := by
  intro evs
  induction evs with
  | nil => intro batch _ tr b hm; simp [batchAndSendRun] at hm
  | cons e rest ih =>
      intro batch hb tr b hm
      simp only [batchAndSendRun, List.mem_append] at hm
      rcases hm with hm | hm
      · rw [Option.mem_toList] at hm
        exact batchAndSendStep_flush_bounds config h1 batch e hb tr b
          (Option.mem_def.mp hm)
      · exact ih (batchAndSendStep config batch e).1
          (batchAndSendStep_open_lt config h1 batch e hb) tr b hm

theorem batchAndSendStep_resets (config : elasticConfig) (batch : List ℕ)
    (e : AggEvent) (hf : (batchAndSendStep config batch e).2.isSome = true) :
    (batchAndSendStep config batch e).1 = [] := by
  cases e with
  | arrive d =>
      simp only [batchAndSendStep] at hf ⊢
      split at hf
      · rename_i hc
        rw [if_pos hc]
      · simp at hf
  | timeoutFire => simp [batchAndSendStep]

theorem sentCount_sendDoc (ic i : ℕ) :
    ∀ (k a f : ℕ), sentCount (sendDoc ic i k a f).1 = 1 := by
  intro k
  induction k with
  | zero => intro a f; simp [sendDoc, sentCount, List.countP_cons]
  | succ k ih =>
      intro a f
      simp only [sendDoc, sentCount, List.countP_cons] at ih ⊢
      simp [ih]

theorem sentCount_sendDocs (ic : ℕ) :
    ∀ (fails : List ℕ) (i f : ℕ),
      sentCount (sendDocs ic i f fails).1 = fails.length := by
  intro fails
  induction fails with
  | nil => intro i f; simp [sendDocs, sentCount]
  | cons k rest ih =>
      intro i f
      simp only [sendDocs, sentCount, List.countP_append]
      have h1 := sentCount_sendDoc ic i k 0 f
      simp only [sentCount] at h1 ih
      simp [h1, ih]
      omega

theorem sentCount_sendToES (config : elasticConfig) (fails : List ℕ) :
    sentCount (sendToES config fails) = fails.length := by
  cases fails with
  | nil => simp [sendToES, sentCount]
  | cons k rest =>
      simp only [sendToES, List.length_cons, connectToES]
      have h1 := sentCount_sendDocs 0 (k :: rest) 0 1
      simp only [sentCount, List.countP_append, List.countP_cons] at h1 ⊢
      simp at h1 ⊢
      omega

theorem fatalConnect_not_in_sendDoc (ic i : ℕ) :
    ∀ (k a f : ℕ), ESEvent.fatalConnect ∉ (sendDoc ic i k a f).1 := by
  intro k
  induction k with
  | zero => intro a f; simp [sendDoc]
  | succ k ih => intro a f; simp [sendDoc, ih]

theorem fatalConnect_not_in_sendDocs (ic : ℕ) :
    ∀ (fails : List ℕ) (i f : ℕ),
      ESEvent.fatalConnect ∉ (sendDocs ic i f fails).1 := by
  intro fails
  induction fails with
  | nil => intro i f; simp [sendDocs]
  | cons k rest ih =>
      intro i f
      simp [sendDocs, fatalConnect_not_in_sendDoc, ih]

theorem reconnectLoop_attempts_le (ok : ℕ → Bool) :
    ∀ (r t : ℕ), (reconnectLoop ok t r).1.countP isConnAttempt ≤ r := by
  intro r
  induction r with
  | zero => intro t; simp [reconnectLoop, isConnAttempt]
  | succ r ih =>
      intro t
      by_cases h : ok t
      · simp [reconnectLoop, h, List.countP_cons, isConnAttempt]
      · simp only [reconnectLoop, h, Bool.false_eq_true, if_false, List.countP_cons]
        have := ih (t + 1)
        simp [isConnAttempt]
        omega

theorem reconnectLoop_no_sleep (ok : ℕ → Bool) :
    ∀ (r t : ℕ), (reconnectLoop ok t r).1.countP isSleep = 0 := by
  intro r
  induction r with
  | zero => intro t; simp [reconnectLoop, isSleep]
  | succ r ih =>
      intro t
      by_cases h : ok t
      · simp [reconnectLoop, h, List.countP_cons, isSleep]
      · simp only [reconnectLoop, h, Bool.false_eq_true, if_false, List.countP_cons]
        simp [isSleep, ih (t + 1)]

theorem reconnectLoop_all_fail (ok : ℕ → Bool) :
    ∀ (r t : ℕ), (∀ j, j < r → ok (t + j) = false) →
      (reconnectLoop ok t r).2 = none ∧
      RcEffect.fatalExit ∈ (reconnectLoop ok t r).1 := by
  intro r
  induction r with
  | zero => intro t _; simp [reconnectLoop]
  | succ r ih =>
      intro t hall
      have h0 : ok t = false := by simpa using hall 0 (Nat.succ_pos r)
      have hrest : ∀ j, j < r → ok (t + 1 + j) = false := by
        intro j hj
        have := hall (j + 1) (by omega)
        simpa [Nat.add_assoc, Nat.add_comm 1 j] using this
      obtain ⟨h1, h2⟩ := ih (t + 1) hrest
      refine ⟨?_, ?_⟩
      · simp [reconnectLoop, h0, h1]
      · simp [reconnectLoop, h0, h2]

theorem reconnectLoop_success_ok (ok : ℕ → Bool) :
    ∀ (r t i : ℕ), (reconnectLoop ok t r).2 = some i → ok i = true := by
  intro r
  induction r with
  | zero => intro t i h; simp [reconnectLoop] at h
  | succ r ih =>
      intro t i h
      by_cases h0 : ok t
      · simp [reconnectLoop, h0] at h
        subst h
        exact h0
      · simp only [reconnectLoop, h0, Bool.false_eq_true, if_false] at h
        exact ih (t + 1) i h

theorem sysRun_inv :
    ∀ (evs : List SysEvent) (s s' : SysState),
      s.natsConsumed = s.esSent + s.pending →
      sysRun s evs = some s' →
      s'.natsConsumed = s'.esSent + s'.pending := by
  intro evs
  induction evs with
  | nil => intro s s' hinv h; simp [sysRun] at h; subst h; exact hinv
  | cons e rest ih =>
      intro s s' hinv h
      cases e with
      | recv =>
          simp only [sysRun, sysStep] at h
          exact ih _ s' (by simp; omega) h
      | submitOk =>
          simp only [sysRun, sysStep] at h
          by_cases hp : s.pending = 0
          · simp [hp] at h
          · simp only [hp, if_false] at h
            exact ih _ s' (by simp; omega) h

/-! ## Claims -/

/-- Claim C1: the claim says that when the receive times out with no message
the loop continues without processing and without dereferencing the nil
message.  The code violates this: `consumeForever` has no `continue` in the
timeout path, so after absorbing `nats.ErrTimeout` it falls through and spawns
the per-message task with `m = nil`; the task evaluates `m.Data`, a nil
dereference (a panic at run time — modelled by `msgTask` yielding no
document).  This theorem evaluates the loop body at the failing input: the
timeout result reaches the spawn with an absent message. -/
theorem c1_timeout_message_is_processed :
    consumeBody NextMsgResult.timeout = ConsumeAction.spawnTask none ∧
    msgTask none "2016-01-02T10:00:00Z" DecodeResult.fail = none :=
  ⟨rfl, rfl⟩

/-- Claim C2: at every reachable counter state, `esSent ≤ natsConsumed` (the
consumed increment — performed once per received message by the caller layer,
modelled from the spec since `processMsg` is outside src/ — always precedes
the corresponding submit success), and `sendToES` increments the sent counter
exactly once per document of the batch, however many retries each document
needed. -/
theorem c2_sent_le_consumed (evs : List SysEvent) (s' : SysState)
    (config : elasticConfig) (fails : List ℕ)
    (h : sysRun ⟨0, 0, 0⟩ evs = some s') :
    s'.esSent ≤ s'.natsConsumed ∧
    sentCount (sendToES config fails) = fails.length := by
  constructor
  · have hinv := sysRun_inv evs ⟨0, 0, 0⟩ s' (by simp) h
    omega
  · exact sentCount_sendToES config fails

/-- Witness for C2 at a concrete event sequence and batch. -/
theorem c2_witness :
    sysRun ⟨0, 0, 0⟩ [SysEvent.recv, SysEvent.recv, SysEvent.submitOk] =
      some ⟨2, 1, 1⟩ ∧
    ((⟨2, 1, 1⟩ : SysState).esSent ≤ (⟨2, 1, 1⟩ : SysState).natsConsumed ∧
     sentCount (sendToES (⟨"idx", ["h"], 9200, false, 3, 5, 10, 2⟩ : elasticConfig)
       [0, 2]) = [0, 2].length) :=
  ⟨by decide,
   c2_sent_le_consumed [SysEvent.recv, SysEvent.recv, SysEvent.submitOk] ⟨2, 1, 1⟩
     (⟨"idx", ["h"], 9200, false, 3, 5, 10, 2⟩ : elasticConfig) [0, 2] (by decide)⟩

/-- Counterexample to claim C3.  The claim: a timeout-driven flush fires once
`batchTimeoutSec` (here 2) has elapsed since the last flush regardless of
appends.  With arrivals at times 1,2,3,4,5 and no flush before, the claim
predicts a timeout flush at time 2, inside the observed window that lasts to
time 5 — but the run flushes nothing at all, because `time.After` is called
anew at every `select` iteration, so each arrival re-arms the timer. -/
theorem c3_counterexample :
    batchAndSendTimed (⟨"idx", ["h"], 9200, false, 3, 5, 10, 2⟩ : elasticConfig)
      10 0 [1, 2, 3, 4, 5] [] = [] ∧
    ((⟨"idx", ["h"], 9200, false, 3, 5, 10, 2⟩ : elasticConfig).batchTimeoutSec).toNat ≤ 5 := by
  decide

/-- Claim C3 as amended: the flush timeout IS reset on each document arrival
(each loop iteration arms a fresh `time.After` timer), so as long as every
arrival comes within `batchTimeoutSec` of the previous loop event, no
timeout-driven flush ever fires. -/
theorem c3_amended (config : elasticConfig) (fuel t : ℕ)
    (arrivals batch : List ℕ)
    (h : gapsLT config.batchTimeoutSec.toNat t arrivals = true) :
    (batchAndSendTimed config fuel t arrivals batch).countP isTimeoutFlush = 0 := by
  induction fuel generalizing t arrivals batch with
  | zero => simp [batchAndSendTimed]
  | succ fuel ih =>
      cases arrivals with
      | nil => simp [batchAndSendTimed]
      | cons a rest =>
          simp only [gapsLT, Bool.and_eq_true, decide_eq_true_eq] at h
          obtain ⟨hlt, hrest⟩ := h
          simp only [batchAndSendTimed]
          rw [if_pos hlt]
          split
          · rw [List.countP_cons]
            simp [isTimeoutFlush, ih a rest [] hrest]
          · exact ih a rest (batch ++ [a]) hrest

/-- Witness for the amended C3 at a concrete run. -/
theorem c3_amended_witness :
    gapsLT ((⟨"idx", ["h"], 9200, false, 3, 5, 10, 2⟩ : elasticConfig).batchTimeoutSec).toNat
      0 [1, 2] = true ∧
    (batchAndSendTimed (⟨"idx", ["h"], 9200, false, 3, 5, 10, 2⟩ : elasticConfig)
      10 0 [1, 2] []).countP isTimeoutFlush = 0 :=
  ⟨by decide,
   c3_amended (⟨"idx", ["h"], 9200, false, 3, 5, 10, 2⟩ : elasticConfig)
     10 0 [1, 2] [] (by decide)⟩

/-- Counterexample to claim C4.  The claim: consecutive reconnection attempts
are separated by a `retrySeconds` delay.  With a budget of 3, `retrySeconds`
arbitrary, and the first attempt failing, the trace holds two consecutive
attempts and not a single sleep — `reconnect`'s body (src/elasticsearch.go
lines 152-166) contains no sleep call; `RetrySeconds` is used only as the
bulk indexer's retry delay (line 112). -/
theorem c4_counterexample :
    (reconnectWith 3 (fun i => i == 1)).1 =
      [RcEffect.connAttempt 0, RcEffect.warnFail 0,
       RcEffect.connAttempt 1, RcEffect.connected 1] ∧
    (reconnectWith 3 (fun i => i == 1)).1.countP isConnAttempt = 2 ∧
    (reconnectWith 3 (fun i => i == 1)).1.countP isSleep = 0 := by
  decide

/-- Claim C4 as amended: reconnection is attempted at most
`reconnectAttempts` times with NO delay between consecutive attempts
(`reconnect` never sleeps; `retrySeconds` configures the bulk indexer
instead); exhausting the budget reaches the fatal exit, and a successful
result comes from a successful attempt. -/
theorem c4_amended (budget : Int) (ok : ℕ → Bool) :
    (reconnectWith budget ok).1.countP isConnAttempt ≤ budget.toNat ∧
    (reconnectWith budget ok).1.countP isSleep = 0 ∧
    ((∀ j, j < budget.toNat → ok j = false) →
      (reconnectWith budget ok).2 = none ∧
      RcEffect.fatalExit ∈ (reconnectWith budget ok).1) ∧
    (∀ i, (reconnectWith budget ok).2 = some i → ok i = true) := by
  refine ⟨reconnectLoop_attempts_le ok budget.toNat 0,
          reconnectLoop_no_sleep ok budget.toNat 0, ?_, ?_⟩
  · intro hall
    exact reconnectLoop_all_fail ok budget.toNat 0
      (by intro j hj; simpa using hall j hj)
  · intro i h
    exact reconnectLoop_success_ok ok budget.toNat 0 i h

/-- Witness for the amended C4: an all-failing budget of 2 is exhausted and
reaches the fatal exit. -/
theorem c4_amended_witness :
    (reconnectWith 2 (fun _ => false)).2 = none ∧
    RcEffect.fatalExit ∈ (reconnectWith 2 (fun _ => false)).1 :=
  (c4_amended 2 (fun _ => false)).2.2.1 (fun _ _ => rfl)

/-- Claim C5: the claim says a failed document is resubmitted against the NEW
connection after a successful reconnect.  The code violates this: the bulk
indexer is created once from the initial client (src/elasticsearch.go line
112) and the reconnected client assigned at line 142 is never used again, so
the retry goes through the indexer still bound to connection 0.  At the
failing input (one document failing once) the trace shows the retry submit on
connection 0 while the reconnect produced connection 1; the sent counter is
nevertheless incremented exactly once, as claimed. -/
theorem c5_retry_not_on_new_connection :
    sendToES (⟨"idx", ["h"], 9200, false, 3, 5, 10, 2⟩ : elasticConfig) [1] =
      [ESEvent.openConn 0, ESEvent.startSession 0,
       ESEvent.submit 0 0 0, ESEvent.submitFail 0 0, ESEvent.reconnected 1,
       ESEvent.submit 0 1 0, ESEvent.sentInc,
       ESEvent.flushSession, ESEvent.stopSession] ∧
    sentCount (sendToES (⟨"idx", ["h"], 9200, false, 3, 5, 10, 2⟩ : elasticConfig)
      [1]) = 1 := by
  decide

/-- Counterexample to claim C6.  The claim names the reserved fields
`raw_message`, `source` and `timestamp`; the code's reserved keys are
`@raw_msg`, `@source` and `@timestamp` (src/elasticsearch.go lines 12-16), so
a document built from a non-JSON message contains none of the claimed keys
while holding the raw bytes under `@raw_msg`. -/
theorem c6_counterexample :
    getKey (buildDoc "hello" "events" "2016-01-02T10:00:00Z" DecodeResult.fail)
      "raw_message" = none ∧
    getKey (buildDoc "hello" "events" "2016-01-02T10:00:00Z" DecodeResult.fail)
      "source" = none ∧
    getKey (buildDoc "hello" "events" "2016-01-02T10:00:00Z" DecodeResult.fail)
      "timestamp" = none ∧
    getKey (buildDoc "hello" "events" "2016-01-02T10:00:00Z" DecodeResult.fail)
      "@raw_msg" = some (JVal.str "hello") := by
  decide

/-- Claim C6 as amended: building a document always succeeds (it is a total
function; the decode error is discarded); on decode failure the document holds
exactly the reserved fields `@raw_msg` (raw bytes as string), `@source`
(topic name) and `@timestamp` (RFC3339 creation time); and the document
contains those three reserved fields in every case EXCEPT when the raw bytes
decode as the JSON literal `null`, which `json.Unmarshal` answers with a nil
error while clearing the destination map — the resulting document then holds
no fields at all (last conjunct). -/
theorem c6_amended (msg source now : String) (dec : DecodeResult)
    (h : dec ≠ DecodeResult.nullLit) :
    (getKey (buildDoc msg source now dec) rawMsgKey).isSome = true ∧
    (getKey (buildDoc msg source now dec) sourceKey).isSome = true ∧
    (getKey (buildDoc msg source now dec) timestampKey).isSome = true ∧
    buildDoc msg source now DecodeResult.fail =
      [(rawMsgKey, JVal.str msg), (sourceKey, JVal.str source),
       (timestampKey, JVal.str now)] ∧
    buildDoc msg source now DecodeResult.nullLit = [] := by
  refine ⟨?_, ?_, ?_, rfl, rfl⟩
  · cases dec with
    | fail => simp [buildDoc, mergeDecoded, getKey_newPayload_raw]
    | nullLit => exact absurd rfl h
    | obj fields =>
        exact getKey_mergeObj_isSome fields (newPayload msg source now) rawMsgKey
          (by simp [getKey_newPayload_raw])
  · cases dec with
    | fail => simp [buildDoc, mergeDecoded, getKey_newPayload_source]
    | nullLit => exact absurd rfl h
    | obj fields =>
        exact getKey_mergeObj_isSome fields (newPayload msg source now) sourceKey
          (by simp [getKey_newPayload_source])
  · cases dec with
    | fail => simp [buildDoc, mergeDecoded, getKey_newPayload_timestamp]
    | nullLit => exact absurd rfl h
    | obj fields =>
        exact getKey_mergeObj_isSome fields (newPayload msg source now) timestampKey
          (by simp [getKey_newPayload_timestamp])

/-- Witness for the amended C6 at a concrete message whose body does not
decode as the JSON literal `null`. -/
theorem c6_amended_witness :
    DecodeResult.fail ≠ DecodeResult.nullLit ∧
    ((getKey (buildDoc "hello" "events" "2016-01-02T10:00:00Z" DecodeResult.fail)
        rawMsgKey).isSome = true ∧
     (getKey (buildDoc "hello" "events" "2016-01-02T10:00:00Z" DecodeResult.fail)
        sourceKey).isSome = true ∧
     (getKey (buildDoc "hello" "events" "2016-01-02T10:00:00Z" DecodeResult.fail)
        timestampKey).isSome = true ∧
     buildDoc "hello" "events" "2016-01-02T10:00:00Z" DecodeResult.fail =
       [(rawMsgKey, JVal.str "hello"), (sourceKey, JVal.str "events"),
        (timestampKey, JVal.str "2016-01-02T10:00:00Z")] ∧
     buildDoc "hello" "events" "2016-01-02T10:00:00Z" DecodeResult.nullLit = []) :=
  ⟨by decide,
   c6_amended "hello" "events" "2016-01-02T10:00:00Z" DecodeResult.fail (by decide)⟩

/-- Claim C7: every decoded top-level field is merged into the document, a
decoded field named like a reserved field overwrites the reserved value
(third conjunct, at the reserved key `@raw_msg`), and the documented scenario:
a body decoding to fields `user = "a"`, `raw_message = "x"` yields a document
whose `raw_message` field is `"x"` (that key is distinct from the reserved
`@raw_msg`, so it is simply added). -/
theorem c7_decoded_fields_merge (msg source now : String)
    (fields : List (String × JVal)) (k : String) (v : JVal)
    (hnd : (fields.map Prod.fst).Nodup) (hmem : (k, v) ∈ fields) :
    getKey (buildDoc msg source now (DecodeResult.obj fields)) k = some v ∧
    getKey (buildDoc msg "events" now
        (DecodeResult.obj [("user", JVal.str "a"), ("raw_message", JVal.str "x")]))
      "raw_message" = some (JVal.str "x") ∧
    getKey (buildDoc msg source now (DecodeResult.obj [(rawMsgKey, JVal.str "x")]))
      rawMsgKey = some (JVal.str "x") := by
  refine ⟨getKey_mergeObj_of_mem fields (newPayload msg source now) k v hnd hmem,
          ?_, ?_⟩
  · exact getKey_mergeObj_of_mem _ _ _ _ (by decide) (by decide)
  · exact getKey_mergeObj_of_mem _ _ _ _ (by decide) (by decide)

/-- Witness for C7 at a concrete decoded object. -/
theorem c7_witness :
    (([("user", JVal.str "a"), ("raw_message", JVal.str "x")].map Prod.fst).Nodup) ∧
    ("user", JVal.str "a") ∈ [("user", JVal.str "a"), ("raw_message", JVal.str "x")] ∧
    getKey (buildDoc "m" "events" "2016-01-02T10:00:00Z"
        (DecodeResult.obj [("user", JVal.str "a"), ("raw_message", JVal.str "x")]))
      "user" = some (JVal.str "a") :=
  ⟨by decide, by decide,
   (c7_decoded_fields_merge "m" "events" "2016-01-02T10:00:00Z"
     [("user", JVal.str "a"), ("raw_message", JVal.str "x")] "user" (JVal.str "a")
     (by decide) (by decide)).1⟩

/-- Claim C8: every size-triggered flush hands over a batch with
`1 ≤ len ≤ batchSize`, every timeout-triggered flush one with
`0 ≤ len < batchSize` (the lower bound is trivial for `ℕ`), and after any
flush the open batch is replaced by a fresh empty one. -/
theorem c8_dispatched_batch_bounds (config : elasticConfig)
    (evs : List AggEvent) (tr : Trigger) (b : List ℕ)
    (batch : List ℕ) (e : AggEvent)
    (h1 : 1 ≤ config.batchSize)
    (h2 : (tr, b) ∈ (batchAndSendRun config [] evs).2) :
    (tr = Trigger.size → 1 ≤ b.length ∧ (b.length : Int) ≤ config.batchSize) ∧
    (tr = Trigger.timeout → (b.length : Int) < config.batchSize) ∧
    ((batchAndSendStep config batch e).2.isSome = true →
      (batchAndSendStep config batch e).1 = []) := by
  have hbounds := batchAndSendRun_flush_bounds config h1 evs []
    (by simp only [List.length_nil, Nat.cast_zero]; omega) tr b h2
  exact ⟨hbounds.1, hbounds.2, batchAndSendStep_resets config batch e⟩

/-- Witness for C8: with `batchSize = 2`, two arrivals produce one
size-triggered flush of exactly two documents. -/
theorem c8_witness :
    1 ≤ (⟨"idx", [], 9200, false, 3, 5, 2, 10⟩ : elasticConfig).batchSize ∧
    (Trigger.size, [7, 8]) ∈
      (batchAndSendRun (⟨"idx", [], 9200, false, 3, 5, 2, 10⟩ : elasticConfig) []
        [AggEvent.arrive 7, AggEvent.arrive 8]).2 ∧
    ((Trigger.size = Trigger.size →
        1 ≤ [7, 8].length ∧
        (([7, 8].length : ℕ) : Int) ≤
          (⟨"idx", [], 9200, false, 3, 5, 2, 10⟩ : elasticConfig).batchSize) ∧
     (Trigger.size = Trigger.timeout →
        (([7, 8].length : ℕ) : Int) <
          (⟨"idx", [], 9200, false, 3, 5, 2, 10⟩ : elasticConfig).batchSize) ∧
     ((batchAndSendStep (⟨"idx", [], 9200, false, 3, 5, 2, 10⟩ : elasticConfig) []
         AggEvent.timeoutFire).2.isSome = true →
       (batchAndSendStep (⟨"idx", [], 9200, false, 3, 5, 2, 10⟩ : elasticConfig) []
         AggEvent.timeoutFire).1 = [])) :=
  ⟨by decide, by decide,
   c8_dispatched_batch_bounds (⟨"idx", [], 9200, false, 3, 5, 2, 10⟩ : elasticConfig)
     [AggEvent.arrive 7, AggEvent.arrive 8] Trigger.size [7, 8] []
     AggEvent.timeoutFire (by decide) (by decide)⟩

/-- Claim C9: dispatching an empty batch is a no-op — `sendToES` returns
before opening a connection or starting a session (src/elasticsearch.go line
98), so its trace is empty and the sent counter does not change. -/
theorem c9_empty_batch_noop (config : elasticConfig) :
    sendToES config [] = [] ∧ sentCount (sendToES config []) = 0 := by
  constructor
  · simp [sendToES]
  · simp [sendToES, sentCount]

/-- Claim C10: `connectToES` ends in `return conn, nil` with no network I/O,
so its error is always nil; hence the fatal connect branch of `sendToES`
is unreachable, and `reconnect` with a budget of at least one always returns
a connection from its very first attempt. -/
theorem c10_connect_never_fails (config : elasticConfig) (fails : List ℕ)
    (h : 1 ≤ config.reconnectAttempts) :
    (connectToES config).2 = none ∧
    ESEvent.fatalConnect ∉ sendToES config fails ∧
    (reconnect config).2 = some 0 ∧
    (reconnect config).1.countP isConnAttempt = 1 := by
  obtain ⟨r, hr⟩ : ∃ r, config.reconnectAttempts.toNat = r + 1 :=
    ⟨config.reconnectAttempts.toNat - 1, by omega⟩
  have hmain : reconnect config =
      ([RcEffect.connAttempt 0, RcEffect.connected 0], some 0) := by
    simp [reconnect, reconnectWith, hr, reconnectLoop, connectToES]
  refine ⟨rfl, ?_, by rw [hmain], by rw [hmain]; decide⟩
  cases fails with
  | nil => simp [sendToES]
  | cons k rest =>
      simp only [sendToES, connectToES, List.length_cons]
      simp [fatalConnect_not_in_sendDoc, fatalConnect_not_in_sendDocs]

/-- Witness for C10 at a concrete configuration and batch. -/
theorem c10_witness :
    1 ≤ (⟨"idx", ["h"], 9200, false, 3, 5, 10, 2⟩ : elasticConfig).reconnectAttempts ∧
    ((connectToES (⟨"idx", ["h"], 9200, false, 3, 5, 10, 2⟩ : elasticConfig)).2 = none ∧
     ESEvent.fatalConnect ∉
       sendToES (⟨"idx", ["h"], 9200, false, 3, 5, 10, 2⟩ : elasticConfig) [2] ∧
     (reconnect (⟨"idx", ["h"], 9200, false, 3, 5, 10, 2⟩ : elasticConfig)).2 = some 0 ∧
     (reconnect (⟨"idx", ["h"], 9200, false, 3, 5, 10, 2⟩ : elasticConfig)).1.countP
       isConnAttempt = 1) :=
  ⟨by decide,
   c10_connect_never_fails (⟨"idx", ["h"], 9200, false, 3, 5, 10, 2⟩ : elasticConfig)
     [2] (by decide)⟩
